import Mathlib

/-
Formal model of the product catalog program in src/product_management.py.
The catalog is a sqlite table (create_tables); save_product, delete_product,
import_from_csv and print_selected_barcodes are modelled as pure functions
over an explicit store state.
-/

/-- One row of the sqlite products table (create_tables, lines 102-115).
Prices are modelled as rationals. -/
structure Row where
  id : Nat
  name : String
  quantity : Int
  purchase : Rat
  sale : Rat
  expiry : String
  barcode : String
  imagePath : String
  supplierName : String
  supplierPhone : String
deriving DecidableEq

/-- Catalog state: the rows plus the sqlite AUTOINCREMENT sequence value
(the largest id ever handed out; sqlite never reuses it). -/
structure StoreState where
  seq : Nat
  rows : List Row
deriving DecidableEq

/-- SELECT MAX(id) FROM products, with NULL coalesced to 0 (the `or 0` in
save_product line 559 and import_from_csv line 1257). -/
def maxId (rows : List Row) : Nat := rows.foldr (fun r m => max r.id m) 0

/-- Decimal digit characters of a natural number, fuel-structured so the
kernel can evaluate it; models Python str(n) for n >= 0. -/
def natDigitsAux : Nat → Nat → List Char
  | 0, _ => []
  | fuel+1, n =>
    if n < 10 then [Nat.digitChar n]
    else natDigitsAux fuel (n / 10) ++ [Nat.digitChar (n % 10)]

def natDigits (n : Nat) : List Char := natDigitsAux (n + 1) n

/-- str.zfill(w) for an unsigned digit string: pad with zeros on the left
to width w. -/
def zfillList (w : Nat) (l : List Char) : List Char :=
  List.replicate (w - l.length) '0' ++ l

/-- The identifier allocator: f"CB" followed by str(maxId+1).zfill(8)
(save_product line 560, import_from_csv line 1258). -/
def allocBarcode (rows : List Row) : String :=
  "CB" ++ String.mk (zfillList 8 (natDigits (maxId rows + 1)))

/-- Whether some row already carries the barcode (the UNIQUE(barcode)
constraint check). -/
def barcodeExists (rows : List Row) (bc : String) : Bool :=
  rows.any (fun r => r.barcode == bc)

/-- sqlite INSERT with AUTOINCREMENT id assignment: the new id is one more
than the larger of the sequence value and the current maximum id, and the
sequence advances to it. -/
def sqlInsert (st : StoreState) (mk : Nat → Row) : StoreState :=
  ⟨max st.seq (maxId st.rows) + 1, st.rows ++ [mk (max st.seq (maxId st.rows) + 1)]⟩

/-- Value of a digit string read left to right. -/
def digitsVal (l : List Char) : Nat := l.foldl (fun a c => a * 10 + (c.toNat - 48)) 0

/-- Nonempty all-digit strings parse; anything else raises ValueError. -/
def digitsToNat? (l : List Char) : Option Nat :=
  if l.isEmpty then none
  else if l.all Char.isDigit then some (digitsVal l) else none

/-- Python int(s) on an already (comma-)stripped string: an optional sign
followed by decimal digits. -/
def pyInt? (s : String) : Option Int :=
  match s.data with
  | '-' :: rest => (digitsToNat? rest).map (fun n => -(n : Int))
  | '+' :: rest => (digitsToNat? rest).map (fun n => (n : Int))
  | l => (digitsToNat? l).map (fun n => (n : Int))

def pyUFloat? (l : List Char) : Option Rat :=
  let ip := l.takeWhile Char.isDigit
  let rest := l.dropWhile Char.isDigit
  match rest with
  | [] => if ip.isEmpty then none else some ((digitsVal ip : Nat) : Rat)
  | '.' :: fp =>
    if fp.all Char.isDigit && !(ip.isEmpty && fp.isEmpty) then
      some ((digitsVal ip : Rat) + (digitsVal fp : Rat) / ((10 : Rat) ^ fp.length))
    else none
  | _ => none

/-- Python float(s) on an already-stripped string; the plain decimal forms
(the only ones this program feeds it). -/
def pyFloat? (s : String) : Option Rat :=
  match s.data with
  | '-' :: rest => (pyUFloat? rest).map (fun q => -q)
  | '+' :: rest => pyUFloat? rest
  | l => pyUFloat? l

/-- s.replace(",", "") as applied to the numeric input fields. -/
def stripCommas (s : String) : String := String.mk (s.data.filter (fun c => c ≠ ','))

/-- Python s.strip(): drop whitespace from both ends. -/
def pyStrip (s : String) : String :=
  String.mk (((s.data.dropWhile Char.isWhitespace).reverse.dropWhile Char.isWhitespace).reverse)

/-- Result of a save_product call: the message-box warnings before any
database write, the IntegrityError branch, and success. -/
inductive SaveResult where
  | validationError
  | conflict
  | saved (st : StoreState)
deriving DecidableEq

/-- The column values bound into the INSERT / UPDATE statement of
save_product. -/
structure ProdVals where
  name : String
  quantity : Int
  purchase : Rat
  sale : Rat
  expiry : String
  barcode : String
  imagePath : String
  supplierName : String
  supplierPhone : String
deriving DecidableEq

/-- SET all columns of a matched row to the bound values (the id column is
not in the SET list). -/
def applyVals (v : ProdVals) (r : Row) : Row :=
  ⟨r.id, v.name, v.quantity, v.purchase, v.sale, v.expiry, v.barcode,
   v.imagePath, v.supplierName, v.supplierPhone⟩

/-- A fresh row from the bound values and a new id. -/
def toRow (v : ProdVals) (i : Nat) : Row :=
  ⟨i, v.name, v.quantity, v.purchase, v.sale, v.expiry, v.barcode,
   v.imagePath, v.supplierName, v.supplierPhone⟩

/-- UPDATE products SET ... WHERE barcode = oldBc (save_product lines
567-571), with the UNIQUE(barcode) constraint: a matched row whose new
barcode equals a different existing row raises IntegrityError; a zero-row
match is an ordinary sqlite success. -/
def sqlUpdate (st : StoreState) (oldBc : String) (v : ProdVals) : Except Unit StoreState :=
  if st.rows.any (fun r => r.barcode == oldBc) then
    if st.rows.any (fun r => r.barcode == v.barcode && r.barcode != oldBc) then Except.error ()
    else Except.ok ⟨st.seq, st.rows.map (fun r => if r.barcode == oldBc then applyVals v r else r)⟩
  else Except.ok st

/-- save_product (lines 513-586): strip the inputs, validate, allocate a
barcode when the box is empty, then UPDATE (record is the pre-edit
barcode, record[5]) or INSERT. expDate and today model the two QDate
values compared on line 549. -/
def save_product (st : StoreState) (name qty purchase sale : String) (expDate today : Int)
    (exp : String) (bc supName supPhone imagePath : String) (record : Option String) : SaveResult :=
  let n := pyStrip name
  let q := pyStrip qty
  let p := pyStrip purchase
  let s := pyStrip sale
  let bc0 := pyStrip bc
  if n = "" ∨ q = "" ∨ p = "" ∨ s = "" then .validationError
  else
    match pyInt? (stripCommas q), pyFloat? (stripCommas p), pyFloat? (stripCommas s) with
    | some qv, some pv, some sv =>
      if qv < 0 then .validationError
      else if pv ≤ 0 then .validationError
      else if sv ≤ 0 then .validationError
      else if sv < pv then .validationError
      else if expDate < today then .validationError
      else
        let bc1 := if bc0 = "" then allocBarcode st.rows else bc0
        let v : ProdVals := ⟨n, qv, pv, sv, exp, bc1, imagePath, pyStrip supName, pyStrip supPhone⟩
        match record with
        | some oldBc =>
          match sqlUpdate st oldBc v with
          | Except.error _ => .conflict
          | Except.ok st2 => .saved st2
        | none =>
          if barcodeExists st.rows bc1 then .conflict
          else .saved (sqlInsert st (toRow v))
    | _, _, _ => .validationError

/-- delete_product (lines 608-624): DELETE FROM products WHERE barcode = bc
(the best-effort image file removal is outside the store model). -/
def delete_product (st : StoreState) (bc : String) : StoreState :=
  ⟨st.seq, st.rows.filter (fun r => r.barcode != bc)⟩

/-- The resolved column-index mapping of import_from_csv (lines 1193-1201):
required columns by index, optional columns present or absent (-1). -/
structure Cols where
  nameCol : Nat
  qtyCol : Nat
  purchaseCol : Nat
  saleCol : Nat
  expiryCol : Option Nat
  barcodeCol : Option Nat
  supNameCol : Option Nat
  supPhoneCol : Option Nat
deriving DecidableEq

/-- headers.index(h), None when absent. -/
def colIndex (headers : List String) (h : String) : Option Nat :=
  match headers with
  | [] => none
  | x :: xs => if x == h then some 0 else (colIndex xs h).map (fun i => i + 1)

/-- Header resolution: headers.index raises ValueError on a missing
required header (caught as the file-format error, line 1202). -/
def resolveCols (headers : List String) : Option Cols := do
  let n ← colIndex headers ("name")
  let q ← colIndex headers ("quantity")
  let p ← colIndex headers ("purchase_price")
  let s ← colIndex headers ("sale_price")
  pure ⟨n, q, p, s, colIndex headers ("expiry_date"), colIndex headers ("barcode"),
        colIndex headers ("supplier_name"), colIndex headers ("supplier_phone")⟩

def isLeap (y : Nat) : Bool := (y % 4 == 0 && y % 100 != 0) || y % 400 == 0

def daysInMonth (y m : Nat) : Nat :=
  if m == 2 then (if isLeap y then 29 else 28)
  else if m == 4 || m == 6 || m == 9 || m == 11 then 30
  else 31

/-- Split a character list on a separator character. -/
def splitOnChar (c : Char) : List Char → List (List Char)
  | [] => [[]]
  | x :: xs =>
    let r := splitOnChar c xs
    if x == c then [] :: r
    else
      match r with
      | [] => [[x]]
      | y :: ys => (x :: y) :: ys

/-- A strptime numeric field: one to maxLen digits. -/
def datePart? (l : List Char) (maxLen : Nat) : Option Nat :=
  if !l.isEmpty && l.length ≤ maxLen && l.all Char.isDigit then some (digitsVal l) else none

def validDMY (d m y : Nat) : Bool :=
  1 ≤ m && m ≤ 12 && 1 ≤ d && d ≤ daysInMonth y m

/-- strftime("%Y-%m-%d") on a parsed date. -/
def fmtISO (y m d : Nat) : String :=
  String.mk (zfillList 4 (natDigits y)) ++ "-" ++ String.mk (zfillList 2 (natDigits m))
    ++ "-" ++ String.mk (zfillList 2 (natDigits d))

/-- strptime(s, "%d/%m/%Y"). -/
def parseDMY? (s : String) : Option (Nat × Nat × Nat) :=
  match splitOnChar '/' s.data with
  | [ds, ms, ys] =>
    match datePart? ds 2, datePart? ms 2, datePart? ys 4 with
    | some d, some m, some y => if validDMY d m y then some (d, m, y) else none
    | _, _, _ => none
  | _ => none

/-- strptime(s, "%Y-%m-%d"). -/
def parseYMD? (s : String) : Option (Nat × Nat × Nat) :=
  match splitOnChar '-' s.data with
  | [ys, ms, ds] =>
    match datePart? ys 4, datePart? ms 2, datePart? ds 2 with
    | some y, some m, some d => if validDMY d m y then some (d, m, y) else none
    | _, _, _ => none
  | _ => none

/-- expiry coercion of import_from_csv (lines 1243-1253): DD/MM/YYYY first,
then YYYY-MM-DD, else the empty string (lenient, never an error). -/
def coerceExpiry (s : String) : String :=
  if s = "" then ""
  else
    match parseDMY? s with
    | some (d, m, y) => fmtISO y m d
    | none =>
      match parseYMD? s with
      | some (d, m, y) => fmtISO y m d
      | none => ""

/-- row[c].strip() if c != -1 and len(row) > c else "" (optional fields,
lines 1222-1225). -/
def getOptField (row : List String) (c : Option Nat) : String :=
  match c with
  | none => ""
  | some i =>
    match row[i]? with
    | some v => pyStrip v
    | none => ""

/-- Process one data row of import_from_csv (lines 1209-1270). Returns the
new state and whether the row was inserted (false = the error counter is
incremented and the row skipped). -/
def processRow (cols : Cols) (st : StoreState) (row : List String) : StoreState × Bool :=
  if row.length < 4 then (st, false)
  else
    match row[cols.nameCol]?, row[cols.qtyCol]?, row[cols.purchaseCol]?, row[cols.saleCol]? with
    | some name0, some qty0, some purchase0, some sale0 =>
      let name := pyStrip name0
      let qty := pyStrip qty0
      let purchase := pyStrip purchase0
      let sale := pyStrip sale0
      let expiry := getOptField row cols.expiryCol
      let bcv := getOptField row cols.barcodeCol
      let supN := getOptField row cols.supNameCol
      let supP := getOptField row cols.supPhoneCol
      if name = "" ∨ qty = "" ∨ purchase = "" ∨ sale = "" then (st, false)
      else
        match pyInt? (stripCommas qty), pyFloat? (stripCommas purchase), pyFloat? (stripCommas sale) with
        | some qv, some pv, some sv =>
          if qv < 0 ∨ pv ≤ 0 ∨ sv ≤ 0 then (st, false)
          else
            let bc := if bcv = "" then allocBarcode st.rows else bcv
            if barcodeExists st.rows bc then (st, false)
            else (sqlInsert st (fun i => ⟨i, name, qv, pv, sv, coerceExpiry expiry, bc, "", supN, supP⟩), true)
        | _, _, _ => (st, false)
    | _, _, _, _ => (st, false)

/-- The row loop of import_from_csv, threading the imported and error
counters. -/
def importRows (cols : Cols) : StoreState → Nat → Nat → List (List String) → StoreState × Nat × Nat
  | st, imp, err, [] => (st, imp, err)
  | st, imp, err, row :: rest =>
    let pr := processRow cols st row
    if pr.2 then importRows cols pr.1 (imp + 1) err rest
    else importRows cols pr.1 imp (err + 1) rest

/-- import_from_csv (lines 1179-1281) on an already-read CSV: resolve the
header columns or fail with the format error (writing nothing), then run
the isolated per-row loop and return the two counts. -/
def import_from_csv (headers : List String) (rows : List (List String)) (st : StoreState) :
    Except Unit (StoreState × Nat × Nat) :=
  match resolveCols headers with
  | none => Except.error ()
  | some cols => Except.ok (importRows cols st 0 0 rows)

/-- The two counts surfaced by an import result. -/
def importCounts (r : Except Unit (StoreState × Nat × Nat)) : Option (Nat × Nat) :=
  match r with
  | Except.ok (_, i, e) => some (i, e)
  | Except.error _ => none

/-- The three thermal paper profiles of the barcode print dialog. -/
inductive PaperSize where
  | small
  | medium
  | large
deriving DecidableEq

/-- The ImageWriter options fixed per paper size (print_selected_barcodes
lines 1033-1071); only the geometry-relevant fields. -/
structure WriterOptions where
  module_width : Rat
  module_height : Rat
  quiet_zone : Rat
deriving DecidableEq

def optionsFor : PaperSize → WriterOptions
  | .small => ⟨25/100, 8, 3⟩
  | .medium => ⟨30/100, 12, 4⟩
  | .large => ⟨35/100, 16, 5⟩

/-- A page rectangle placement (QRectF). -/
structure Rect where
  x : Rat
  y : Rat
  w : Rat
  h : Rat
deriving DecidableEq

/-- Geometry of the rasterized barcode image on the page (lines 1083-1091):
width is 90 percent of the page width, height preserves the module aspect
ratio over the encoded string length, horizontally centered, top at
10 percent of the page height. -/
def barcodeRect (opts : WriterOptions) (pageW pageH : Rat) (symLen : Nat) : Rect :=
  let w := pageW * (9/10)
  let h := w * (opts.module_height / (opts.module_width * (symLen : Rat)))
  ⟨(pageW - w) / 2, pageH * (1/10), w, h⟩

/-- Name line: QRectF(10, barcode_y + img_height + 5, pageW - 20, 30)
(lines 1101-1102). -/
def nameRect (b : Rect) (pageW : Rat) : Rect := ⟨10, b.y + b.h + 5, pageW - 20, 30⟩

/-- Price line: QRectF(10, barcode_y + img_height + 25, pageW - 20, 30)
(lines 1107-1108). -/
def priceRect (b : Rect) (pageW : Rat) : Rect := ⟨10, b.y + b.h + 25, pageW - 20, 30⟩

/-- Drawing/page instructions emitted in fallback mode. -/
inductive POp where
  | drawImage (r : Rect)
  | drawText (r : Rect) (s : String)
  | newPage
deriving DecidableEq

def isNewPage : POp → Bool
  | .newPage => true
  | _ => false

def newPages (ops : List POp) : Nat := (ops.filter isNewPage).length

/-- SELECT name, sale_price FROM products WHERE barcode = bc, with the
empty-name / zero-price fallback of lines 1022-1024. -/
def lookupNamePrice (st : StoreState) (bc : String) : String × Rat :=
  match st.rows.find? (fun r => r.barcode == bc) with
  | some r => (r.name, r.sale)
  | none => ("", 0)

/-- The temporary raster file name (line 1074). -/
def tempName (bc : String) : String := "temp_barcode_" ++ bc ++ ".png"

/-- The price caption drawn on the label; the exact numeric formatting of
the Python f-string is abstracted into toString. -/
def priceText (p : Rat) : String := "Prix : " ++ toString p ++ " DA"

/-- Render one copy in fallback mode (lines 1017-1121). tmp is the set of
temporary files on disk; imgOk says whether QImage can load the saved
raster (a null image raises, line 1080); removeOk says whether the final
os.remove succeeds (its failure is swallowed, lines 1118-1121). Returns
the new temp-file set, the emitted instructions, and False when the copy
raised (aborting the job). The new-page decision (line 1114) advances
unless this is the last copy of an item that compares equal to the last
list entry. -/
def renderCopy (st : StoreState) (showPrice : Bool) (ps : PaperSize) (pageW pageH : Rat)
    (item : String × Nat) (copyIdx : Nat) (lastItem : String × Nat)
    (tmp : List String) (imgOk removeOk : String → Bool) : List String × List POp × Bool :=
  let bcv := item.1
  let fname := tempName bcv
  let tmp1 := if fname ∈ tmp then tmp else tmp ++ [fname]
  if imgOk fname = false then (tmp1, [], false)
  else
    let np := lookupNamePrice st bcv
    let b := barcodeRect (optionsFor ps) pageW pageH bcv.length
    let ops1 := [POp.drawImage b, POp.drawText (nameRect b pageW) np.1]
    let ops2 := if showPrice then ops1 ++ [POp.drawText (priceRect b pageW) (priceText np.2)] else ops1
    let ops3 := if copyIdx < item.2 - 1 ∨ item ≠ lastItem then ops2 ++ [POp.newPage] else ops2
    let tmp2 := if removeOk fname then tmp1.filter (fun f => f ≠ fname) else tmp1
    (tmp2, ops3, true)

/-- The for _ in range(copies) loop for one item, from copy index idx with
rem copies left; a raised copy aborts the loop. -/
def renderCopiesFrom (st : StoreState) (showPrice : Bool) (ps : PaperSize) (pageW pageH : Rat)
    (item lastItem : String × Nat) (imgOk removeOk : String → Bool) (idx : Nat) :
    Nat → List String → List String × List POp × Bool
  | 0, tmp => (tmp, [], true)
  | rem + 1, tmp =>
    let r1 := renderCopy st showPrice ps pageW pageH item idx lastItem tmp imgOk removeOk
    if r1.2.2 then
      let r2 := renderCopiesFrom st showPrice ps pageW pageH item lastItem imgOk removeOk (idx + 1) rem r1.1
      (r2.1, r1.2.1 ++ r2.2.1, r2.2.2)
    else r1

/-- The outer loop over the selected (barcode, copies) pairs. -/
def renderJob (st : StoreState) (showPrice : Bool) (ps : PaperSize) (pageW pageH : Rat)
    (lastItem : String × Nat) (imgOk removeOk : String → Bool) :
    List (String × Nat) → List String → List String × List POp × Bool
  | [], tmp => (tmp, [], true)
  | item :: rest, tmp =>
    let r1 := renderCopiesFrom st showPrice ps pageW pageH item lastItem imgOk removeOk 0 item.2 tmp
    if r1.2.2 then
      let r2 := renderJob st showPrice ps pageW pageH lastItem imgOk removeOk rest r1.1
      (r2.1, r1.2.1 ++ r2.2.1, r2.2.2)
    else r1

/-- The fallback branch of print_selected_barcodes (lines 989-1126) for a
job of (barcode, copies) pairs; the empty selection is rejected earlier
(line 924). -/
def printFallback (st : StoreState) (showPrice : Bool) (ps : PaperSize) (pageW pageH : Rat)
    (items : List (String × Nat)) (imgOk removeOk : String → Bool) :
    List String × List POp × Bool :=
  match items.getLast? with
  | none => ([], [], true)
  | some lastItem => renderJob st showPrice ps pageW pageH lastItem imgOk removeOk items []

/-- Total copies of a job. -/
def sumCopies (items : List (String × Nat)) : Nat := (items.map (fun i => i.2)).sum

/-- Catalog operations for the deletion-gap scenario of the allocator:
inserts whose barcode the allocator derives, and deletions by barcode. -/
inductive CatalogOp where
  | insertAuto (nm : String) (q : Int) (p s : Rat) (e sn sp im : String)
  | deleteBc (bc : String)

/-- Apply one operation: the save_product insert path with an empty barcode
box (lines 557-577; the IntegrityError case leaves the store unchanged),
or delete_product. -/
def applyOp (st : StoreState) : CatalogOp → StoreState
  | .insertAuto nm q p s e sn sp im =>
    let bc := allocBarcode st.rows
    if barcodeExists st.rows bc then st
    else sqlInsert st (toRow ⟨nm, q, p, s, e, bc, im, sn, sp⟩)
  | .deleteBc bc => delete_product st bc

/-- Run a sequence of catalog operations from the empty store. -/
def runOps (ops : List CatalogOp) : StoreState := ops.foldl applyOp ⟨0, []⟩

/-- The allocator string for a given counter value. -/
def cbOf (k : Nat) : String := "CB" ++ String.mk (zfillList 8 (natDigits k))

/-- The invariant behind the allocator: every stored barcode was derived
from a counter value no larger than the id of its row, and the sequence
bounds every id. -/
def StoreInv (st : StoreState) : Prop :=
  (∀ r ∈ st.rows, ∃ k, k ≤ r.id ∧ r.barcode = cbOf k) ∧ (∀ r ∈ st.rows, r.id ≤ st.seq)

/-- The ten-row import batch of the isolation property: row 5 carries the
quantity -3, every other row is well formed. -/
def tenRowBatch : List (List String) :=
  [["P1", "1", "1", "2"], ["P2", "1", "1", "2"], ["P3", "1", "1", "2"], ["P4", "1", "1", "2"],
   ["P5", "-3", "1", "2"], ["P6", "1", "1", "2"], ["P7", "1", "1", "2"], ["P8", "1", "1", "2"],
   ["P9", "1", "1", "2"], ["P10", "1", "1", "2"]]

/-- The stored (purchase, sale) price pairs after an import. -/
def importedPrices (r : Except Unit (StoreState × Nat × Nat)) : List (Rat × Rat) :=
  match r with
  | Except.ok (st, _, _) => st.rows.map (fun row => (row.purchase, row.sale))
  | Except.error _ => []

/-- The deletion-gap scenario as a proposition: some state reachable by
auto-barcoded inserts and deletes in which the next derived barcode
already belongs to a surviving record. -/
def collisionReachable : Prop :=
  ∃ ops : List CatalogOp,
    barcodeExists (runOps ops).rows (allocBarcode (runOps ops).rows) = true

theorem allocBarcode_eq_cbOf (rows : List Row) : allocBarcode rows = cbOf (maxId rows + 1) := rfl

theorem digitsVal_append (l : List Char) (c : Char) :
    digitsVal (l ++ [c]) = digitsVal l * 10 + (c.toNat - 48) := by
  simp [digitsVal, List.foldl_append]

theorem digitChar_val {n : Nat} (h : n < 10) : (Nat.digitChar n).toNat - 48 = n := by
  interval_cases n <;> decide

theorem digitsVal_natDigitsAux : ∀ fuel n : Nat, n < fuel → digitsVal (natDigitsAux fuel n) = n := by
  intro fuel
  induction fuel with
  | zero => intro n h; omega
  | succ f ih =>
    intro n h
    by_cases h10 : n < 10
    · simp [natDigitsAux, h10, digitsVal, digitChar_val h10]
    · have hdiv : n / 10 < f := by
        have h1 : n / 10 < n := Nat.div_lt_self (by omega) (by omega)
        omega
      have hmod : n % 10 < 10 := Nat.mod_lt n (by omega)
      simp only [natDigitsAux, if_neg h10, digitsVal_append, ih _ hdiv, digitChar_val hmod]
      omega

theorem digitsVal_natDigits (n : Nat) : digitsVal (natDigits n) = n :=
  digitsVal_natDigitsAux (n + 1) n (Nat.lt_succ_self n)

theorem digitsVal_replicate_zero (k : Nat) (l : List Char) :
    digitsVal (List.replicate k '0' ++ l) = digitsVal l := by
  induction k with
  | zero => simp
  | succ k ih =>
    have h0 : ('0'.toNat - 48) = 0 := by decide
    simpa [List.replicate_succ, digitsVal, h0] using ih

theorem digitsVal_zfillList (w : Nat) (l : List Char) :
    digitsVal (zfillList w l) = digitsVal l :=
  digitsVal_replicate_zero (w - l.length) l

theorem cbOf_inj {k1 k2 : Nat} (h : cbOf k1 = cbOf k2) : k1 = k2 := by
  have h1 : cbOf k1 = String.mk ('C' :: 'B' :: zfillList 8 (natDigits k1)) := rfl
  have h2 : cbOf k2 = String.mk ('C' :: 'B' :: zfillList 8 (natDigits k2)) := rfl
  rw [h1, h2] at h
  have hdata := congrArg String.data h
  have hz : zfillList 8 (natDigits k1) = zfillList 8 (natDigits k2) := by
    simpa using hdata
  calc k1 = digitsVal (zfillList 8 (natDigits k1)) := by
        rw [digitsVal_zfillList, digitsVal_natDigits]
    _ = digitsVal (zfillList 8 (natDigits k2)) := by rw [hz]
    _ = k2 := by rw [digitsVal_zfillList, digitsVal_natDigits]

theorem le_maxId {rows : List Row} {r : Row} (h : r ∈ rows) : r.id ≤ maxId rows := by
  induction rows with
  | nil => cases h
  | cons x xs ih =>
    have hmax : maxId (x :: xs) = max x.id (maxId xs) := rfl
    rcases List.mem_cons.mp h with rfl | hm
    · rw [hmax]; exact Nat.le_max_left _ _
    · rw [hmax]; exact le_trans (ih hm) (Nat.le_max_right _ _)

theorem storeInv_init : StoreInv ⟨0, []⟩ :=
  ⟨fun r h => absurd h (List.not_mem_nil r), fun r h => absurd h (List.not_mem_nil r)⟩

theorem storeInv_applyOp {st : StoreState} (h : StoreInv st) (op : CatalogOp) :
    StoreInv (applyOp st op) := by
  cases op with
  | deleteBc bc =>
    refine ⟨fun r hr => h.1 r ?_, fun r hr => h.2 r ?_⟩ <;>
      exact List.mem_of_mem_filter hr
  | insertAuto nm q p s e sn sp im =>
    simp only [applyOp]
    split
    · exact h
    · constructor
      · intro r hr
        simp only [sqlInsert, List.mem_append, List.mem_singleton] at hr
        rcases hr with hr | rfl
        · exact h.1 r hr
        · exact ⟨maxId st.rows + 1, by simp only [toRow]; omega, rfl⟩
      · intro r hr
        simp only [sqlInsert, List.mem_append, List.mem_singleton] at hr
        rcases hr with hr | rfl
        · have := h.2 r hr
          simp only [sqlInsert]
          omega
        · simp [toRow, sqlInsert]

theorem storeInv_runOps (ops : List CatalogOp) : StoreInv (runOps ops) := by
  suffices h : ∀ st, StoreInv st → StoreInv (ops.foldl applyOp st) from h _ storeInv_init
  induction ops with
  | nil => intro st h; exact h
  | cons op rest ih => intro st h; exact ih _ (storeInv_applyOp h op)

theorem noCollision_of_inv {st : StoreState} (h : StoreInv st) :
    barcodeExists st.rows (allocBarcode st.rows) = false := by
  by_contra hc
  rw [Bool.not_eq_false, barcodeExists, List.any_eq_true] at hc
  obtain ⟨r, hr, hbc⟩ := hc
  rw [beq_iff_eq, allocBarcode_eq_cbOf] at hbc
  obtain ⟨k, hk, hcb⟩ := h.1 r hr
  have hkk : k = maxId st.rows + 1 := cbOf_inj (hcb.symm.trans hbc)
  have hle := le_maxId hr
  omega

theorem newPages_append (a b : List POp) : newPages (a ++ b) = newPages a + newPages b := by
  simp [newPages, List.filter_append]

theorem renderCopy_ok (st : StoreState) (showPrice : Bool) (ps : PaperSize) (pageW pageH : Rat)
    (item : String × Nat) (idx : Nat) (lastItem : String × Nat) (tmp : List String)
    (removeOk : String → Bool) :
    (renderCopy st showPrice ps pageW pageH item idx lastItem tmp (fun _ => true) removeOk).2.2 = true := by
  simp [renderCopy]

theorem renderCopy_newPages (st : StoreState) (showPrice : Bool) (ps : PaperSize) (pageW pageH : Rat)
    (item : String × Nat) (idx : Nat) (lastItem : String × Nat) (tmp : List String)
    (removeOk : String → Bool) :
    newPages (renderCopy st showPrice ps pageW pageH item idx lastItem tmp (fun _ => true) removeOk).2.1
      = if idx < item.2 - 1 ∨ item ≠ lastItem then 1 else 0 := by
  by_cases hc : idx < item.2 - 1 ∨ item ≠ lastItem <;>
    by_cases hs : showPrice <;>
      simp [renderCopy, newPages, hc, hs, isNewPage, List.filter_append]

theorem renderCopiesFrom_ok (st : StoreState) (showPrice : Bool) (ps : PaperSize) (pageW pageH : Rat)
    (item lastItem : String × Nat) (removeOk : String → Bool) :
    ∀ (rem idx : Nat) (tmp : List String),
      (renderCopiesFrom st showPrice ps pageW pageH item lastItem (fun _ => true) removeOk idx rem tmp).2.2 = true := by
  intro rem
  induction rem with
  | zero => intro idx tmp; rfl
  | succ r ih =>
    intro idx tmp
    simp only [renderCopiesFrom, renderCopy_ok, if_true]
    exact ih (idx + 1) _

theorem renderCopiesFrom_newPages_ne (st : StoreState) (showPrice : Bool) (ps : PaperSize)
    (pageW pageH : Rat) (item lastItem : String × Nat) (removeOk : String → Bool)
    (hne : item ≠ lastItem) :
    ∀ (rem idx : Nat) (tmp : List String),
      newPages (renderCopiesFrom st showPrice ps pageW pageH item lastItem (fun _ => true) removeOk idx rem tmp).2.1 = rem := by
  intro rem
  induction rem with
  | zero => intro idx tmp; rfl
  | succ r ih =>
    intro idx tmp
    simp only [renderCopiesFrom, renderCopy_ok, if_true, newPages_append,
      renderCopy_newPages, ih (idx + 1)]
    rw [if_pos (Or.inr hne)]
    omega

theorem renderCopiesFrom_newPages_last (st : StoreState) (showPrice : Bool) (ps : PaperSize)
    (pageW pageH : Rat) (lastItem : String × Nat) (removeOk : String → Bool) :
    ∀ (rem idx : Nat) (tmp : List String), idx + rem = lastItem.2 →
      newPages (renderCopiesFrom st showPrice ps pageW pageH lastItem lastItem (fun _ => true) removeOk idx rem tmp).2.1 = rem - 1 := by
  intro rem
  induction rem with
  | zero => intro idx tmp _; rfl
  | succ r ih =>
    intro idx tmp hsum
    have hcond : (if idx < lastItem.2 - 1 ∨ lastItem ≠ lastItem then 1 else 0)
        = if r = 0 then 0 else 1 := by
      by_cases hr : r = 0
      · have hn : ¬(idx < lastItem.2 - 1 ∨ lastItem ≠ lastItem) := by
          simp only [ne_eq, not_true_eq_false, or_false, not_lt]
          omega
        rw [if_neg hn, if_pos hr]
      · rw [if_pos (Or.inl (by omega)), if_neg hr]
    simp only [renderCopiesFrom, renderCopy_ok, if_true, newPages_append,
      renderCopy_newPages, ih (idx + 1) _ (by omega), hcond]
    split <;> omega

theorem le_sumCopies_of_mem {items : List (String × Nat)} {x : String × Nat} (h : x ∈ items) :
    x.2 ≤ sumCopies items := by
  induction items with
  | nil => cases h
  | cons y ys ih =>
    have hsum : sumCopies (y :: ys) = y.2 + sumCopies ys := by simp [sumCopies]
    rcases List.mem_cons.mp h with rfl | hm
    · omega
    · have := ih hm; omega

theorem getLastQ_mem {α : Type} : ∀ {l : List α} {a : α}, l.getLast? = some a → a ∈ l := by
  intro l
  induction l with
  | nil => intro a h; simp at h
  | cons x xs ih =>
    intro a h
    cases xs with
    | nil =>
      have hx : x = a := by simpa using h
      simp [hx]
    | cons y ys =>
      rw [List.getLast?_cons_cons] at h
      exact List.mem_cons_of_mem x (ih h)

theorem renderJob_cons_newPages (st : StoreState) (showPrice : Bool) (ps : PaperSize)
    (pageW pageH : Rat) (lastItem : String × Nat) (removeOk : String → Bool)
    (item : String × Nat) (rest : List (String × Nat)) (tmp : List String)
    (hok : (renderCopiesFrom st showPrice ps pageW pageH item lastItem (fun _ => true) removeOk 0 item.2 tmp).2.2 = true) :
    newPages (renderJob st showPrice ps pageW pageH lastItem (fun _ => true) removeOk (item :: rest) tmp).2.1
      = newPages (renderCopiesFrom st showPrice ps pageW pageH item lastItem (fun _ => true) removeOk 0 item.2 tmp).2.1
        + newPages (renderJob st showPrice ps pageW pageH lastItem (fun _ => true) removeOk rest
            (renderCopiesFrom st showPrice ps pageW pageH item lastItem (fun _ => true) removeOk 0 item.2 tmp).1).2.1 := by
  conv_lhs => rw [renderJob]
  simp only [hok, if_true, newPages_append]

theorem renderJob_newPages (st : StoreState) (showPrice : Bool) (ps : PaperSize)
    (pageW pageH : Rat) (lastItem : String × Nat) (removeOk : String → Bool) :
    ∀ (items : List (String × Nat)) (tmp : List String),
      items.getLast? = some lastItem →
      (∀ x ∈ items.dropLast, x ≠ lastItem) →
      1 ≤ lastItem.2 →
      newPages (renderJob st showPrice ps pageW pageH lastItem (fun _ => true) removeOk items tmp).2.1
        = sumCopies items - 1 := by
  intro items
  induction items with
  | nil => intro tmp h; simp at h
  | cons x rest ih =>
    intro tmp hlast hdrop hpos
    cases rest with
    | nil =>
      have hx : x = lastItem := by simpa using hlast
      subst hx
      rw [renderJob_cons_newPages st showPrice ps pageW pageH x removeOk x [] tmp
        (renderCopiesFrom_ok st showPrice ps pageW pageH x x removeOk x.2 0 tmp),
        renderCopiesFrom_newPages_last st showPrice ps pageW pageH x removeOk x.2 0 tmp (by omega)]
      simp [sumCopies, newPages, renderJob]
    | cons y ys =>
      have hlast2 : (y :: ys).getLast? = some lastItem := by
        rw [List.getLast?_cons_cons] at hlast
        exact hlast
      have hxne : x ≠ lastItem := by
        apply hdrop
        rw [List.dropLast_cons₂]
        exact List.mem_cons_self x _
      have hdrop2 : ∀ z ∈ (y :: ys).dropLast, z ≠ lastItem := by
        intro z hz
        apply hdrop
        rw [List.dropLast_cons₂]
        exact List.mem_cons_of_mem x hz
      have hmem : lastItem ∈ y :: ys := getLastQ_mem hlast2
      have hsumge : 1 ≤ sumCopies (y :: ys) := le_trans hpos (le_sumCopies_of_mem hmem)
      rw [renderJob_cons_newPages st showPrice ps pageW pageH lastItem removeOk x (y :: ys) tmp
        (renderCopiesFrom_ok st showPrice ps pageW pageH x lastItem removeOk x.2 0 tmp),
        renderCopiesFrom_newPages_ne st showPrice ps pageW pageH x lastItem removeOk hxne,
        ih _ hlast2 hdrop2 hpos]
      have hsum : sumCopies (x :: y :: ys) = x.2 + sumCopies (y :: ys) := by simp [sumCopies]
      omega


theorem importRows_counts (cols : Cols) :
    ∀ (rows : List (List String)) (st : StoreState) (imp err : Nat),
      (importRows cols st imp err rows).2.1 + (importRows cols st imp err rows).2.2
        = imp + err + rows.length := by
  intro rows
  induction rows with
  | nil => intro st imp err; simp [importRows]
  | cons row rest ih =>
    intro st imp err
    cases h : (processRow cols st row).2 with
    | true =>
      simp only [importRows, h, if_true]
      have := ih (processRow cols st row).1 (imp + 1) err
      simp only [List.length_cons]
      omega
    | false =>
      simp only [importRows, h, Bool.false_eq_true, if_false]
      have := ih (processRow cols st row).1 imp (err + 1)
      simp only [List.length_cons]
      omega

theorem colIndex_eq_none {headers : List String} {h : String} (hm : h ∉ headers) :
    colIndex headers h = none := by
  induction headers with
  | nil => rfl
  | cons x xs ih =>
    rw [List.mem_cons, not_or] at hm
    have hx : (x == h) = false := by
      simp only [beq_eq_false_iff_ne, ne_eq]
      exact fun e => hm.1 e.symm
    simp only [colIndex, hx, Bool.false_eq_true, if_false, ih hm.2, Option.map_none']

/-- C1: when no barcode is supplied, the allocated barcode is CB followed
by maxId+1 zero-padded to 8 digits; on the empty catalog the first
allocation is CB00000001, and after one inserted record the next
allocation is CB00000002. -/
theorem C1_allocator_determinism :
    allocBarcode [] = "CB00000001" ∧
    (∀ rows : List Row,
      allocBarcode rows = "CB" ++ String.mk (zfillList 8 (natDigits (maxId rows + 1)))) ∧
    (∃ st1 : StoreState,
      save_product ⟨0, []⟩ ("p") ("1") ("1") ("2") 0 0 ("d") ("") ("") ("") ("") none
        = SaveResult.saved st1 ∧
      allocBarcode st1.rows = "CB00000002") :=
  ⟨by decide, fun rows => rfl,
   ⟨⟨1, [⟨1, "p", 1, 1, 2, "d", "CB00000001", "", "", ""⟩]⟩, by decide, by decide⟩⟩

/-- C2: once the header resolves, the import never fails: every row is
either inserted or counted as an error (the two counts always sum to the
number of data rows), and the ten-row batch whose fifth row has quantity
-3 imports 9 records with exactly 1 skipped row. -/
theorem C2_import_isolation :
    (∀ (headers : List String) (rows : List (List String)) (st : StoreState) (cols : Cols),
      resolveCols headers = some cols →
      import_from_csv headers rows st = Except.ok (importRows cols st 0 0 rows) ∧
      (importRows cols st 0 0 rows).2.1 + (importRows cols st 0 0 rows).2.2 = rows.length) ∧
    importCounts (import_from_csv ["name", "quantity", "purchase_price", "sale_price"]
      tenRowBatch ⟨0, []⟩) = some (9, 1) := by
  constructor
  · intro headers rows st cols hres
    constructor
    · simp [import_from_csv, hres]
    · simpa using importRows_counts cols rows st 0 0
  · decide

/-- C2 witness: the hypotheses of the universal part discharged on the
ten-row batch with the standard header. -/
theorem C2_witness :
    import_from_csv ["name", "quantity", "purchase_price", "sale_price"] tenRowBatch ⟨0, []⟩
      = Except.ok (importRows ⟨0, 1, 2, 3, none, none, none, none⟩ ⟨0, []⟩ 0 0 tenRowBatch) ∧
    (importRows ⟨0, 1, 2, 3, none, none, none, none⟩ ⟨0, []⟩ 0 0 tenRowBatch).2.1
      + (importRows ⟨0, 1, 2, 3, none, none, none, none⟩ ⟨0, []⟩ 0 0 tenRowBatch).2.2
      = tenRowBatch.length :=
  C2_import_isolation.1 ["name", "quantity", "purchase_price", "sale_price"] tenRowBatch
    ⟨0, []⟩ ⟨0, 1, 2, 3, none, none, none, none⟩ (by decide)

/-- C3: an import source whose header lacks any of name, quantity,
purchase_price, sale_price fails with the format error and no record is
written (the error is raised before the row loop starts). -/
theorem C3_missing_required_header :
    ∀ (headers : List String) (rows : List (List String)) (st : StoreState),
      ("name" ∉ headers ∨ "quantity" ∉ headers ∨ "purchase_price" ∉ headers ∨
        "sale_price" ∉ headers) →
      import_from_csv headers rows st = Except.error () := by
  intro headers rows st hmiss
  have hnone : resolveCols headers = none := by
    rcases hmiss with h | h | h | h
    · simp [resolveCols, colIndex_eq_none h]
    · cases hn : colIndex headers ("name") <;>
        simp [resolveCols, hn, colIndex_eq_none h]
    · cases hn : colIndex headers ("name") <;>
        cases hq : colIndex headers ("quantity") <;>
          simp [resolveCols, hn, hq, colIndex_eq_none h]
    · cases hn : colIndex headers ("name") <;>
        cases hq : colIndex headers ("quantity") <;>
          cases hp : colIndex headers ("purchase_price") <;>
            simp [resolveCols, hn, hq, hp, colIndex_eq_none h]
  simp [import_from_csv, hnone]

/-- C3 witness: a header missing sale_price aborts the import with nothing
written. -/
theorem C3_witness :
    ("sale_price" ∉ (["name", "quantity", "purchase_price"] : List String)) ∧
    import_from_csv ["name", "quantity", "purchase_price"] [["a", "1", "1", "2"]] ⟨0, []⟩
      = Except.error () :=
  ⟨by decide,
   C3_missing_required_header ["name", "quantity", "purchase_price"] [["a", "1", "1", "2"]]
     ⟨0, []⟩ (Or.inr (Or.inr (Or.inr (by decide))))⟩

/-- C4 counterexample: a CSV row with purchase price 2 and sale price 1
(both positive, sale below purchase) is inserted by the import, not
rejected: the import reports one inserted record and zero skipped rows,
and the stored row has sale 1 below purchase 2. -/
theorem C4_counterexample :
    importCounts (import_from_csv ["name", "quantity", "purchase_price", "sale_price"]
      [["x", "1", "2", "1"]] ⟨0, []⟩) = some (1, 0) ∧
    importedPrices (import_from_csv ["name", "quantity", "purchase_price", "sale_price"]
      [["x", "1", "2", "1"]] ⟨0, []⟩) = [(2, 1)] ∧
    (1 : Rat) < 2 :=
  ⟨by decide, by decide, by decide⟩

/-- C4 amended: the manual save path (save_product) rejects a sale price
below the purchase price before any store write; the CSV import path does
not enforce this and inserts such rows when both prices are positive. -/
theorem C4_amended :
    ∀ (st : StoreState) (name qty purchase sale : String) (expDate today : Int)
      (exp bc supName supPhone imagePath : String) (record : Option String) (pv sv : Rat),
      pyFloat? (stripCommas (pyStrip purchase)) = some pv →
      pyFloat? (stripCommas (pyStrip sale)) = some sv →
      sv < pv →
      save_product st name qty purchase sale expDate today exp bc supName supPhone imagePath record
        = SaveResult.validationError := by
  intro st name qty purchase sale expDate today exp bc supName supPhone imagePath record pv sv hp hs hlt
  by_cases h0 : (pyStrip name = "" ∨ pyStrip qty = "" ∨ pyStrip purchase = "" ∨ pyStrip sale = "")
  · simp [save_product, h0]
  · cases hq : pyInt? (stripCommas (pyStrip qty)) with
    | none => simp [save_product, h0, hq, hp, hs]
    | some qv =>
      by_cases hq0 : qv < 0
      · simp [save_product, h0, hq, hp, hs, hq0]
      · by_cases hp0 : pv ≤ 0
        · simp [save_product, h0, hq, hp, hs, hq0, hp0]
        · by_cases hs0 : sv ≤ 0
          · simp [save_product, h0, hq, hp, hs, hq0, hp0, hs0]
          · simp [save_product, h0, hq, hp, hs, hq0, hp0, hs0, hlt]

/-- C4 witness: the amended rejection discharged on concrete inputs with
purchase 2 and sale 1. -/
theorem C4_witness :
    pyFloat? (stripCommas (pyStrip ("2"))) = some 2 ∧
    pyFloat? (stripCommas (pyStrip ("1"))) = some 1 ∧
    (1 : Rat) < 2 ∧
    save_product ⟨0, []⟩ ("x") ("5") ("2") ("1") 0 0 ("d") ("") ("") ("") ("") none
      = SaveResult.validationError :=
  ⟨by decide, by decide, by decide,
   C4_amended ⟨0, []⟩ ("x") ("5") ("2") ("1") 0 0 ("d") ("") ("") ("") ("") none 2 1
     (by decide) (by decide) (by decide)⟩

/-- C5 counterexample: editing with a pre-edit barcode that matches no
record does not fail with a not-found error: the UPDATE matches zero rows
and save_product reports an ordinary success with the store unchanged. -/
theorem C5_counterexample :
    save_product ⟨1, [⟨1, "a", 1, 1, 2, "d", "A", "", "", ""⟩]⟩ ("a2") ("1") ("1") ("2") 0 0 ("d")
      ("") ("") ("") ("") (some ("B"))
      = SaveResult.saved ⟨1, [⟨1, "a", 1, 1, 2, "d", "A", "", "", ""⟩]⟩ := by decide

/-- C5 amended: the update matches the record by the pre-edit barcode; it
conflicts when the new barcode collides with a different existing record,
succeeds otherwise (a product may change its own barcode), and when the
pre-edit barcode matches no record it silently succeeds as a zero-row
no-op instead of failing with a not-found error. -/
theorem C5_amended :
    ∀ (st : StoreState) (oldBc : String) (v : ProdVals),
      ((∀ r ∈ st.rows, r.barcode ≠ oldBc) → sqlUpdate st oldBc v = Except.ok st) ∧
      ((∃ r ∈ st.rows, r.barcode = oldBc) →
        (∃ r ∈ st.rows, r.barcode = v.barcode ∧ r.barcode ≠ oldBc) →
        sqlUpdate st oldBc v = Except.error ()) ∧
      ((∃ r ∈ st.rows, r.barcode = oldBc) →
        (∀ r ∈ st.rows, r.barcode = v.barcode → r.barcode = oldBc) →
        sqlUpdate st oldBc v = Except.ok
          ⟨st.seq, st.rows.map (fun r => if r.barcode == oldBc then applyVals v r else r)⟩) := by
  intro st oldBc v
  refine ⟨?_, ?_, ?_⟩
  · intro hnone
    have hc : st.rows.any (fun r => r.barcode == oldBc) = false := by
      rw [List.any_eq_false]
      intro r hr
      simpa using hnone r hr
    simp [sqlUpdate, hc]
  · intro hsome hconf
    have h1 : st.rows.any (fun r => r.barcode == oldBc) = true := by
      rw [List.any_eq_true]
      obtain ⟨r, hr, he⟩ := hsome
      exact ⟨r, hr, by simp [he]⟩
    have h2 : st.rows.any (fun r => r.barcode == v.barcode && r.barcode != oldBc) = true := by
      rw [List.any_eq_true]
      obtain ⟨r, hr, he, hne⟩ := hconf
      exact ⟨r, hr, by simp [he, he ▸ hne]⟩
    simp [sqlUpdate, h1, h2]
  · intro hsome hnoconf
    have h1 : st.rows.any (fun r => r.barcode == oldBc) = true := by
      rw [List.any_eq_true]
      obtain ⟨r, hr, he⟩ := hsome
      exact ⟨r, hr, by simp [he]⟩
    have h2 : st.rows.any (fun r => r.barcode == v.barcode && r.barcode != oldBc) = false := by
      rw [List.any_eq_false]
      intro r hr
      intro hcontra
      rw [Bool.and_eq_true, beq_iff_eq, bne_iff_ne] at hcontra
      exact hcontra.2 (hnoconf r hr hcontra.1)
    simp [sqlUpdate, h1, h2]

/-- C5 witness: the three contract cases discharged on concrete stores. -/
theorem C5_witness :
    sqlUpdate ⟨1, [⟨1, "a", 1, 1, 2, "d", "A", "", "", ""⟩]⟩ ("B")
        ⟨"a2", 1, 1, 2, "d", "A2", "", "", ""⟩
      = Except.ok ⟨1, [⟨1, "a", 1, 1, 2, "d", "A", "", "", ""⟩]⟩ ∧
    sqlUpdate ⟨2, [⟨1, "a", 1, 1, 2, "d", "A", "", "", ""⟩, ⟨2, "c", 1, 1, 2, "d", "C", "", "", ""⟩]⟩
        ("A") ⟨"a2", 1, 1, 2, "d", "C", "", "", ""⟩
      = Except.error () ∧
    sqlUpdate ⟨1, [⟨1, "a", 1, 1, 2, "d", "A", "", "", ""⟩]⟩ ("A")
        ⟨"a2", 1, 1, 2, "d", "A2", "", "", ""⟩
      = Except.ok ⟨1, ([⟨1, "a", 1, 1, 2, "d", "A", "", "", ""⟩] : List Row).map
          (fun r => if r.barcode == "A" then applyVals ⟨"a2", 1, 1, 2, "d", "A2", "", "", ""⟩ r else r)⟩ :=
  ⟨(C5_amended ⟨1, [⟨1, "a", 1, 1, 2, "d", "A", "", "", ""⟩]⟩ ("B")
      ⟨"a2", 1, 1, 2, "d", "A2", "", "", ""⟩).1 (by decide),
   ((C5_amended ⟨2, [⟨1, "a", 1, 1, 2, "d", "A", "", "", ""⟩, ⟨2, "c", 1, 1, 2, "d", "C", "", "", ""⟩]⟩
      ("A") ⟨"a2", 1, 1, 2, "d", "C", "", "", ""⟩).2.1 (by decide) (by decide)),
   ((C5_amended ⟨1, [⟨1, "a", 1, 1, 2, "d", "A", "", "", ""⟩]⟩ ("A")
      ⟨"a2", 1, 1, 2, "d", "A2", "", "", ""⟩).2.2 (by decide) (by decide))⟩

/-- C6: the fallback label geometry: the drawn barcode image rectangle has
width 90 percent of the page width, height of width times
moduleHeight/(moduleWidth * barcode string length), is horizontally
centered, and sits at 10 percent of the page height; it is a pure
function of profile, page rectangle and string length. -/
theorem C6_label_geometry :
    ∀ (ps : PaperSize) (pageW pageH : Rat) (st : StoreState) (showPrice : Bool)
      (item : String × Nat) (copyIdx : Nat) (lastItem : String × Nat)
      (tmp : List String) (removeOk : String → Bool),
      POp.drawImage (barcodeRect (optionsFor ps) pageW pageH item.1.length)
        ∈ (renderCopy st showPrice ps pageW pageH item copyIdx lastItem tmp (fun _ => true) removeOk).2.1 ∧
      (barcodeRect (optionsFor ps) pageW pageH item.1.length).w = pageW * (9/10) ∧
      (barcodeRect (optionsFor ps) pageW pageH item.1.length).h
        = (barcodeRect (optionsFor ps) pageW pageH item.1.length).w
          * ((optionsFor ps).module_height / ((optionsFor ps).module_width * (item.1.length : Rat))) ∧
      (barcodeRect (optionsFor ps) pageW pageH item.1.length).x
        = (pageW - (barcodeRect (optionsFor ps) pageW pageH item.1.length).w) / 2 ∧
      (barcodeRect (optionsFor ps) pageW pageH item.1.length).y = pageH * (1/10) := by
  intro ps pageW pageH st showPrice item copyIdx lastItem tmp removeOk
  refine ⟨?_, rfl, rfl, rfl, rfl⟩
  by_cases hs : showPrice <;>
    by_cases hc : (copyIdx < item.2 - 1 ∨ item ≠ lastItem) <;>
      simp [renderCopy, hs, hc]

/-- C7 counterexample: a fallback job listing the identical pair (A, 1)
twice advances zero pages, not sum(copies) - 1 = 1: on the final copy of
the first entry the value comparison with the last list entry also
matches, so no page break separates the two labels. -/
theorem C7_counterexample :
    newPages (printFallback ⟨0, []⟩ true .small 40 20 [("A", 1), ("A", 1)]
      (fun _ => true) (fun _ => true)).2.1 = 0 ∧
    sumCopies [("A", 1), ("A", 1)] - 1 = 1 :=
  ⟨by decide, by decide⟩

/-- C7 amended: one page per physical copy with a page advance between
consecutive copies except after the final copy of the final item, so the
advance count is sum(copies) - 1, provided the final (barcode, copies)
pair does not occur earlier in the list (the code compares pairs by
value, not by position). -/
theorem C7_amended :
    ∀ (st : StoreState) (showPrice : Bool) (ps : PaperSize) (pageW pageH : Rat)
      (items : List (String × Nat)) (lastItem : String × Nat) (removeOk : String → Bool),
      items.getLast? = some lastItem →
      (∀ x ∈ items.dropLast, x ≠ lastItem) →
      1 ≤ lastItem.2 →
      newPages (printFallback st showPrice ps pageW pageH items (fun _ => true) removeOk).2.1
        = sumCopies items - 1 := by
  intro st showPrice ps pageW pageH items lastItem removeOk hlast hdrop hpos
  simp only [printFallback, hlast]
  exact renderJob_newPages st showPrice ps pageW pageH lastItem removeOk items [] hlast hdrop hpos

/-- C7 witness: a two-item job with 2 and 3 copies advances exactly 4
pages. -/
theorem C7_witness :
    newPages (printFallback ⟨0, []⟩ true .small 40 20 [("A", 2), ("B", 3)]
      (fun _ => true) (fun _ => true)).2.1 = sumCopies [("A", 2), ("B", 3)] - 1 :=
  C7_amended ⟨0, []⟩ true .small 40 20 [("A", 2), ("B", 3)] ("B", 3) (fun _ => true)
    (by decide) (by decide) (by decide)

/-- C8 counterexample: when loading the rendered raster raises (null
QImage), the per-copy cleanup is never reached: the job aborts and the
temporary barcode file is still on disk, contradicting deletion
regardless of success. -/
theorem C8_counterexample :
    (printFallback ⟨0, []⟩ true .small 40 20 [("A", 1)] (fun _ => false) (fun _ => true)).1
      = [tempName ("A")] ∧
    (printFallback ⟨0, []⟩ true .small 40 20 [("A", 1)] (fun _ => false) (fun _ => true)).2.2
      = false :=
  ⟨by decide, by decide⟩

/-- C8 amended: for a copy that renders successfully the temporary raster
file is deleted when the deletion itself succeeds, and a deletion failure
is swallowed (the copy still completes); a copy that raises mid-render
aborts the job and leaves the file behind. -/
theorem C8_amended :
    ∀ (st : StoreState) (showPrice : Bool) (ps : PaperSize) (pageW pageH : Rat)
      (item : String × Nat) (copyIdx : Nat) (lastItem : String × Nat)
      (tmp : List String) (imgOk removeOk : String → Bool),
      imgOk (tempName item.1) = true →
      (renderCopy st showPrice ps pageW pageH item copyIdx lastItem tmp imgOk removeOk).2.2 = true ∧
      (removeOk (tempName item.1) = true →
        tempName item.1 ∉ (renderCopy st showPrice ps pageW pageH item copyIdx lastItem tmp imgOk removeOk).1) := by
  intro st showPrice ps pageW pageH item copyIdx lastItem tmp imgOk removeOk himg
  constructor
  · simp [renderCopy, himg]
  · intro hrem
    simp [renderCopy, himg, hrem, List.mem_filter]

/-- C8 witness: the amended cleanup discharged on a concrete copy. -/
theorem C8_witness :
    (renderCopy ⟨0, []⟩ true .small 40 20 ("A", 1) 0 ("A", 1) [] (fun _ => true) (fun _ => true)).2.2
      = true ∧
    tempName ("A") ∉ (renderCopy ⟨0, []⟩ true .small 40 20 ("A", 1) 0 ("A", 1) []
      (fun _ => true) (fun _ => true)).1 :=
  ⟨(C8_amended ⟨0, []⟩ true .small 40 20 ("A", 1) 0 ("A", 1) [] (fun _ => true) (fun _ => true) rfl).1,
   (C8_amended ⟨0, []⟩ true .small 40 20 ("A", 1) 0 ("A", 1) [] (fun _ => true) (fun _ => true) rfl).2 rfl⟩

/-- C9 counterexample: the claimed deletion-gap collision state is
unreachable: after every sequence of auto-barcoded inserts and deletes,
the next derived barcode matches no surviving record, because
AUTOINCREMENT never reuses ids and every surviving barcode encodes a
counter at most its row id, hence at most the current maximum id. -/
theorem C9_counterexample : collisionReachable ↔ False :=
  iff_false_intro (fun hcol => by
    obtain ⟨ops, h⟩ := hcol
    rw [noCollision_of_inv (storeInv_runOps ops)] at h
    exact Bool.false_ne_true h)

/-- C9 amended: with only auto-allocated inserts and deletes the next
derived barcode never collides with a surviving record; a conflict of the
derived barcode requires a user-supplied barcode, e.g. manually inserting
CB00000002 into an empty catalog makes the next auto allocation fail with
a conflict. -/
theorem C9_amended :
    (∀ ops : List CatalogOp,
      barcodeExists (runOps ops).rows (allocBarcode (runOps ops).rows) = false) ∧
    (∃ st1 : StoreState,
      save_product ⟨0, []⟩ ("m") ("1") ("1") ("2") 0 0 ("d") ("CB00000002") ("") ("") ("") none
        = SaveResult.saved st1 ∧
      save_product st1 ("n") ("1") ("1") ("2") 0 0 ("d") ("") ("") ("") ("") none
        = SaveResult.conflict) :=
  ⟨fun ops => noCollision_of_inv (storeInv_runOps ops),
   ⟨⟨1, [⟨1, "m", 1, 1, 2, "d", "CB00000002", "", "", ""⟩]⟩, by decide, by decide⟩⟩

/-- C10 counterexample: an edit submitted with an empty barcode box does
not always change the barcode: if the stored barcode already equals the
freshly derived CB string, the allocated value coincides with it and the
record keeps its barcode. -/
theorem C10_counterexample :
    save_product ⟨1, [⟨1, "a", 1, 1, 2, "d", "CB00000002", "", "", ""⟩]⟩ ("a") ("1") ("1") ("2")
      0 0 ("d") ("") ("") ("") ("") (some ("CB00000002"))
      = SaveResult.saved ⟨1, [⟨1, "a", 1, 1, 2, "d", "CB00000002", "", "", ""⟩]⟩ := by decide

theorem sqlUpdate_ok_mem {st st2 : StoreState} {oldBc : String} {v : ProdVals} {r : Row}
    (heq : sqlUpdate st oldBc v = Except.ok st2) (hr : r ∈ st.rows) (hbc : r.barcode = oldBc) :
    applyVals v r ∈ st2.rows := by
  rw [sqlUpdate] at heq
  have hany : st.rows.any (fun row => row.barcode == oldBc) = true := by
    rw [List.any_eq_true]
    exact ⟨r, hr, by simp [hbc]⟩
  rw [if_pos hany] at heq
  split at heq
  · simp at heq
  · cases heq
    have hfr : (fun row => if row.barcode == oldBc then applyVals v row else row) r
        = applyVals v r := by
      simp [hbc]
    rw [← hfr]
    exact List.mem_map_of_mem _ hr

/-- C10 amended: an edit submitted with an empty barcode box does not
preserve the previous barcode; the saved record carries the freshly
allocated CB string derived from maxId+1 (which coincides with the old
barcode only when the old barcode already equals that string). -/
theorem C10_amended :
    ∀ (st st2 : StoreState) (name qty purchase sale : String) (expDate today : Int)
      (exp supName supPhone imagePath oldBc : String) (r : Row),
      save_product st name qty purchase sale expDate today exp ("") supName supPhone imagePath
        (some oldBc) = SaveResult.saved st2 →
      r ∈ st.rows → r.barcode = oldBc →
      ∃ r2 ∈ st2.rows, r2.id = r.id ∧ r2.barcode = allocBarcode st.rows := by
  intro st st2 name qty purchase sale expDate today exp supName supPhone imagePath oldBc r hsave hr hbc
  have hps : pyStrip ("") = "" := by decide
  simp only [save_product, hps] at hsave
  split at hsave
  · exact absurd hsave (by simp)
  · split at hsave
    · split at hsave
      · exact absurd hsave (by simp)
      · split at hsave
        · exact absurd hsave (by simp)
        · split at hsave
          · exact absurd hsave (by simp)
          · split at hsave
            · exact absurd hsave (by simp)
            · split at hsave
              · exact absurd hsave (by simp)
              · split at hsave
                · exact absurd hsave (by simp)
                · next heq =>
                  cases hsave
                  exact ⟨applyVals _ r, sqlUpdate_ok_mem heq hr hbc, rfl, rfl⟩
    · exact absurd hsave (by simp)

/-- C10 witness: a concrete edit with a cleared barcode box replaces the
stored barcode X by the allocated CB00000002. -/
theorem C10_witness :
    ∃ r2 ∈ (⟨1, [⟨1, "a", 1, 1, 2, "d", "CB00000002", "", "", ""⟩]⟩ : StoreState).rows,
      r2.id = 1 ∧ r2.barcode = allocBarcode [⟨1, "a", 1, 1, 2, "d", "X", "", "", ""⟩] :=
  C10_amended ⟨1, [⟨1, "a", 1, 1, 2, "d", "X", "", "", ""⟩]⟩
    ⟨1, [⟨1, "a", 1, 1, 2, "d", "CB00000002", "", "", ""⟩]⟩ ("a") ("1") ("1") ("2") 0 0 ("d")
    ("") ("") ("") ("X") ⟨1, "a", 1, 1, 2, "d", "X", "", "", ""⟩ (by decide) (by decide) rfl
